import Mathlib

/-!
Verification of the tour-construction engine of the Kundennummer_Location
repository (`src/app/services/route_optimizer.py`, with the data model from
`src/app/models.py` and constants from `src/app/config.py`).

Embedding conventions:
* Python floats are embedded as exact rationals (`ℚ`) throughout the greedy
  optimizer, and as exact reals (`ℝ`) for the haversine distance function
  itself, whose trigonometry is not rational.
* The optimizer (`optimize_routes` and its helpers) is parametric in the
  metric `dist : ℚ → ℚ → ℚ → ℚ → ℚ` standing for `_calculate_distance`:
  none of the control flow of the optimizer depends on which metric is
  plugged in, and keeping it a parameter makes every definition computable.
* `Optional[float]` coordinates are `Option ℚ`; the Python idiom
  `addr.lat or 0` is `Option.getD · 0` (Python `or` yields the right operand
  exactly when the left is falsy, i.e. `None` or `0.0`, and `0.0 or 0 = 0`).
* Python `int` is `ℤ`; the pydantic bounds (`0 ≤ bottles ≤ 80`) appear as
  hypotheses where a claim states them.
* The in-place mutation of the stop pool (`remaining_addresses.remove`) is
  modelled by value: the scorer returns the first feasible stop attaining the
  minimal score, and no earlier pool entry can be structurally equal to it
  (equal values have equal scores), so removing the first occurrence of the
  selected value (`List.erase`) removes exactly the position the Python code
  removes.
* Python loops are embedded with an explicit fuel argument that makes the
  recursion structural; the callers pass a fuel that provably dominates the
  iteration count, so the fuel never runs out on the calls the theorems are
  about.
-/

namespace RouteOpt

/-- Priority levels from `src/app/models.py` (`class Priority(int, Enum)`):
STANDARD = 0, HIGH = 1, MEDIUM = 2, LOW = 3. -/
inductive RoutePriority where
  | standard
  | high
  | medium
  | low
deriving DecidableEq, Repr

/-- The integer value of a priority, as in the Python `int` enum. -/
def RoutePriority.value : RoutePriority → ℤ
  | .standard => 0
  | .high => 1
  | .medium => 2
  | .low => 3

/-- The `Address` pydantic model from `src/app/models.py`: identity, demand,
priority, geocoded position and the assignment fields written by the
optimizer. -/
structure Address where
  id : Option String
  address : String
  delivery_id : Option String
  bottles : ℤ
  priority : Option RoutePriority
  lat : Option ℚ
  lon : Option ℚ
  tour_number : Option ℤ
  stop_order : Option ℤ
  optimized : Bool
deriving DecidableEq, Repr

/-- The `Tour` pydantic model from `src/app/models.py`. -/
structure Tour where
  id : ℤ
  addresses : List Address
  total_bottles : ℤ
  total_distance : ℚ
  estimated_time : ℤ
  hq_returns : ℤ
deriving DecidableEq, Repr

/-- Constant `settings.MAX_BOTTLES_PER_TRIP` from `src/app/config.py`. -/
def MAX_BOTTLES_PER_TRIP : ℤ := 80

/-- Constant `settings.AVERAGE_SPEED_KMH` from `src/app/config.py`. -/
def AVERAGE_SPEED_KMH : ℚ := 50

/-- Constant `HQLocation.lat` from `src/app/models.py`. -/
def hqLat : ℚ := 48.1067

/-- Constant `HQLocation.lon` from `src/app/models.py`. -/
def hqLon : ℚ := 11.4247

/-- Constant `HQLocation.address` from `src/app/models.py`. -/
def hqAddressStr : String := "Planegg, Deutschland"

/-- Python `int(x)` on a float: truncation toward zero, on exact rationals. -/
def pyInt (q : ℚ) : ℤ := q.num.tdiv q.den

/-- Python `round(x, 2)`: rounding to two decimal places (modelled as
round-half-up on exact rationals; no claim depends on the tie direction). -/
def round2 (q : ℚ) : ℚ := ((q * 100 + 1/2).floor : ℚ) / 100

/-- The `nearby_addresses` accumulation inside
`RouteOptimizer._calculate_cluster_bonus`: every candidate distinct from the
target by `id`, within 10 km of the target, whose demand fits the capacity
left after placing the target, paired with its distance to the target, in
input order. -/
def nearby_addresses (dist : ℚ → ℚ → ℚ → ℚ → ℚ) (target : Address)
    (candidates : List Address) (remaining_capacity : ℤ) :
    List (Address × ℚ) :=
  candidates.filterMap fun candidate =>
    if candidate.id = target.id then none
    else
      let distance := dist (target.lat.getD 0) (target.lon.getD 0)
        (candidate.lat.getD 0) (candidate.lon.getD 0)
      if distance ≤ 10 ∧ candidate.bottles ≤ remaining_capacity - target.bottles
      then some (candidate, distance) else none

/-- Function `RouteOptimizer._calculate_cluster_bonus`: 0.0 when at most one candidate
exists, the isolation penalty 5.0 when no nearby candidate exists, otherwise
`max 0 (5 - Σ max 0 (5 - d))` over the first up to three nearby candidates in
input order. -/
def calculate_cluster_bonus (dist : ℚ → ℚ → ℚ → ℚ → ℚ) (target : Address)
    (candidates : List Address) (remaining_capacity : ℤ) : ℚ :=
  if candidates.length ≤ 1 then 0
  else
    let nearby := nearby_addresses dist target candidates remaining_capacity
    if nearby.isEmpty then 5
    else max 0 (5 - ((nearby.take 3).map fun p => max 0 (5 - p.2)).sum)

/-- The per-candidate weighted score computed inside
`RouteOptimizer._find_next_best_address`: capped distance, priority (Python
truthiness makes both `None` and `STANDARD` take the 22.5 branch), bottle
efficiency and the clustering look-ahead, combined with weights
0.4 / 0.35 / 0.15 / 0.1. -/
def address_score (dist : ℚ → ℚ → ℚ → ℚ → ℚ) (current_location : ℚ × ℚ)
    (feasible : List Address) (remaining_capacity : ℤ) (addr : Address) : ℚ :=
  let distance := dist current_location.1 current_location.2
    (addr.lat.getD 0) (addr.lon.getD 0)
  let distance_score := min distance 100
  let priority_score : ℚ :=
    match addr.priority with
    | some p => if p.value ≠ 0 then ((p.value : ℚ) - 1) * 15 else 22.5
    | none => 22.5
  let bottle_efficiency := max 0 (10 - (addr.bottles : ℚ) * 0.125)
  let cluster_bonus :=
    calculate_cluster_bonus dist addr feasible remaining_capacity
  distance_score * 0.4 + priority_score * 0.35 +
    bottle_efficiency * 0.15 + cluster_bonus * 0.1

/-- The `for addr in feasible: if total_score < best_score: ...` loop of
`RouteOptimizer._find_next_best_address`, with the running best as
accumulator: the first element attaining the minimal score wins (the update
uses a strict comparison). -/
def selectBest (score : Address → ℚ) : List Address → Address → Address
  | [], best => best
  | a :: rest, best =>
      selectBest score rest (if score a < score best then a else best)

/-- Function `RouteOptimizer._find_next_best_address`: feasibility filter, the
short-circuits for zero and one feasible candidates, and otherwise the
first-minimum of the weighted score. -/
def find_next_best_address (dist : ℚ → ℚ → ℚ → ℚ → ℚ)
    (current_location : ℚ × ℚ) (candidates : List Address)
    (remaining_capacity : ℤ) : Option Address :=
  match candidates.filter fun addr => addr.bottles ≤ remaining_capacity with
  | [] => none
  | [addr] => some addr
  | addr :: rest =>
      some (selectBest
        (address_score dist current_location (addr :: rest) remaining_capacity)
        rest addr)

/-- The in-place assignment `next_address.tour_number = ...;
next_address.stop_order = ...; next_address.optimized = True` performed by
`RouteOptimizer._create_single_tour` on the chosen stop. -/
def mark_placed (addr : Address) (tour_id order : ℤ) : Address :=
  { addr with
    tour_number := some tour_id
    stop_order := some order
    optimized := true }

/-- The `while remaining_addresses and current_bottles < MAX` loop of
`RouteOptimizer._create_single_tour`, with explicit fuel (the caller passes
the pool length, which dominates the iteration count since every iteration
removes one pool element). Returns the placed stops, the accumulated bottle
load and the leftover pool. -/
def create_tour_loop (dist : ℚ → ℚ → ℚ → ℚ → ℚ) (tour_id : ℤ) :
    ℕ → List Address → ℤ → ℚ × ℚ → List Address →
    List Address × ℤ × List Address
  | 0, tour_addresses, current_bottles, _, remaining =>
      (tour_addresses, current_bottles, remaining)
  | fuel + 1, tour_addresses, current_bottles, current_location, remaining =>
      if remaining = [] ∨ MAX_BOTTLES_PER_TRIP ≤ current_bottles then
        (tour_addresses, current_bottles, remaining)
      else
        match find_next_best_address dist current_location remaining
            (MAX_BOTTLES_PER_TRIP - current_bottles) with
        | none => (tour_addresses, current_bottles, remaining)
        | some next_address =>
            create_tour_loop dist tour_id fuel
              (tour_addresses ++
                [mark_placed next_address tour_id (tour_addresses.length + 1)])
              (current_bottles + next_address.bottles)
              (next_address.lat.getD 0, next_address.lon.getD 0)
              (remaining.erase next_address)

/-- Function `RouteOptimizer._calculate_tour_distance`: HQ to first stop, consecutive
legs, last stop back to HQ. -/
def calculate_tour_distance (dist : ℚ → ℚ → ℚ → ℚ → ℚ)
    (addresses : List Address) : ℚ :=
  match addresses with
  | [] => 0
  | first :: rest =>
      dist hqLat hqLon (first.lat.getD 0) (first.lon.getD 0) +
      ((addresses.zip rest).map fun p =>
        dist (p.1.lat.getD 0) (p.1.lon.getD 0)
          (p.2.lat.getD 0) (p.2.lon.getD 0)).sum +
      (let last := rest.getLastD first
       dist (last.lat.getD 0) (last.lon.getD 0) hqLat hqLon)

/-- Function `RouteOptimizer._calculate_tour_time`: travel time at the configured
average speed plus 5 minutes of service per stop, truncated to minutes. -/
def calculate_tour_time (distance : ℚ) (num_stops : ℕ) : ℤ :=
  pyInt (distance / AVERAGE_SPEED_KMH * 60 + (num_stops : ℚ) * 5)

/-- Function `RouteOptimizer._create_single_tour`: run the greedy loop from the HQ
with an empty load, then assemble the `Tour` record; also returns the
leftover pool. -/
def create_single_tour (dist : ℚ → ℚ → ℚ → ℚ → ℚ) (tour_id : ℤ)
    (remaining : List Address) : Tour × List Address :=
  let r := create_tour_loop dist tour_id remaining.length [] 0
    (hqLat, hqLon) remaining
  let total_distance := calculate_tour_distance dist r.1
  ({ id := tour_id
     addresses := r.1
     total_bottles := r.2.1
     total_distance := round2 total_distance
     estimated_time := calculate_tour_time total_distance r.1.length
     hq_returns := if 0 < r.2.1 then 1 else 0 }, r.2.2)

/-- The depot placeholder `Address` built by
`RouteOptimizer._create_hq_refill_stop`. -/
def hq_refill_address (tour_id : ℤ) : Address :=
  { id := some "HQ-REFILL"
    address := hqAddressStr
    delivery_id := some ("HQ-REFILL-" ++ toString tour_id)
    bottles := 0
    priority := none
    lat := some hqLat
    lon := some hqLon
    tour_number := some tour_id
    stop_order := some 1
    optimized := true }

/-- Function `RouteOptimizer._create_hq_refill_stop`: the synthetic refill tour with a
single depot placeholder stop, zero load, zero distance and a fixed
15-minute duration. -/
def create_hq_refill_stop (tour_id : ℤ) : Tour :=
  { id := tour_id
    addresses := [hq_refill_address tour_id]
    total_bottles := 0
    total_distance := 0
    estimated_time := 15
    hq_returns := 1 }

/-- The sort-key weight computed inside
`RouteOptimizer._sort_addresses_by_priority_and_distance`: `None` maps to 3;
an explicit priority goes through the `value == 1` / `value == 2` / `else`
chain, so the explicit `STANDARD` (value 0) falls into the `else` branch and
gets weight 2, exactly like `LOW`. -/
def priority_weight : Option RoutePriority → ℤ
  | none => 3
  | some p => if p.value = 1 then 0 else if p.value = 2 then 1 else 2

/-- The full sort key `(priority_weight, distance from HQ)` of
`RouteOptimizer._sort_addresses_by_priority_and_distance`. -/
def sort_key (dist : ℚ → ℚ → ℚ → ℚ → ℚ) (addr : Address) : ℤ × ℚ :=
  (priority_weight addr.priority,
   dist hqLat hqLon (addr.lat.getD 0) (addr.lon.getD 0))

/-- Python tuple comparison on the sort keys: lexicographic order. -/
def sortLe (dist : ℚ → ℚ → ℚ → ℚ → ℚ) (a b : Address) : Prop :=
  (sort_key dist a).1 < (sort_key dist b).1 ∨
    ((sort_key dist a).1 = (sort_key dist b).1 ∧
      (sort_key dist a).2 ≤ (sort_key dist b).2)

instance (dist : ℚ → ℚ → ℚ → ℚ → ℚ) : DecidableRel (sortLe dist) :=
  fun a b => by unfold sortLe; infer_instance

instance (dist : ℚ → ℚ → ℚ → ℚ → ℚ) : IsTotal Address (sortLe dist) where
  total a b := by
    unfold sortLe
    rcases lt_trichotomy (sort_key dist a).1 (sort_key dist b).1 with h | h | h
    · exact Or.inl (Or.inl h)
    · rcases le_total (sort_key dist a).2 (sort_key dist b).2 with h2 | h2
      · exact Or.inl (Or.inr ⟨h, h2⟩)
      · exact Or.inr (Or.inr ⟨h.symm, h2⟩)
    · exact Or.inr (Or.inl h)

instance (dist : ℚ → ℚ → ℚ → ℚ → ℚ) : IsTrans Address (sortLe dist) where
  trans a b c hab hbc := by
    unfold sortLe at *
    rcases hab with h1 | ⟨h1, h1d⟩ <;> rcases hbc with h2 | ⟨h2, h2d⟩
    · exact Or.inl (h1.trans h2)
    · exact Or.inl (h2 ▸ h1)
    · exact Or.inl (h1 ▸ h2)
    · exact Or.inr ⟨h1.trans h2, h1d.trans h2d⟩

/-- Function `RouteOptimizer._sort_addresses_by_priority_and_distance`: Python
`sorted` is a stable ascending sort by the key, which insertion sort
realises (a stable sort by a total preorder has a unique output). -/
def sort_addresses_by_priority_and_distance (dist : ℚ → ℚ → ℚ → ℚ → ℚ)
    (addresses : List Address) : List Address :=
  List.insertionSort (sortLe dist) addresses

/-- The `while remaining_addresses` loop of
`RouteOptimizer.optimize_routes`, with explicit fuel (the caller passes the
pool length, which every non-terminal iteration strictly decreases): build a
tour, stop after appending an empty tour, otherwise insert a refill tour
whenever stops remain, and recurse with the next tour id. -/
def optimize_loop (dist : ℚ → ℚ → ℚ → ℚ → ℚ) :
    ℕ → ℤ → List Address → List Tour
  | 0, _, _ => []
  | fuel + 1, tour_id, remaining =>
      if remaining = [] then []
      else
        let r := create_single_tour dist tour_id remaining
        if r.1.addresses = [] then [r.1]
        else if r.2 = [] then
          r.1 :: optimize_loop dist fuel (tour_id + 1) r.2
        else
          r.1 :: create_hq_refill_stop tour_id ::
            optimize_loop dist fuel (tour_id + 1) r.2

/-- Function `RouteOptimizer.optimize_routes`: early return on the empty input,
otherwise sort and run the multi-tour loop starting at tour id 1. -/
def optimize_routes (dist : ℚ → ℚ → ℚ → ℚ → ℚ)
    (addresses : List Address) : List Tour :=
  if addresses = [] then []
  else
    let sorted := sort_addresses_by_priority_and_distance dist addresses
    optimize_loop dist sorted.length 1 sorted

/-- The tours appended by `_create_single_tour` invocations versus the tours
inserted by `_create_hq_refill_stop`: the output of the multi-tour loop
alternates (delivery, refill, delivery, refill, …, delivery), so the
delivery tours are the even positions and the refill tours the odd ones. -/
def split_alternating : List Tour → List Tour × List Tour
  | [] => ([], [])
  | [t] => ([t], [])
  | t :: r :: rest =>
      let p := split_alternating rest
      (t :: p.1, r :: p.2)

/-- The identity of a stop seen by the caller: every `Address` field except
the three assignment fields (`tour_number`, `stop_order`, `optimized`) that
the optimizer writes when it places the stop. -/
def stop_core (a : Address) :
    Option String × String × Option String × ℤ × Option RoutePriority ×
      Option ℚ × Option ℚ :=
  (a.id, a.address, a.delivery_id, a.bottles, a.priority, a.lat, a.lon)

end RouteOpt

namespace RouteOpt

/-- A first-minimum decomposition bounds the score over the whole list. -/
theorem score_min_of_decomp (score : Address → ℚ) {L pre post : List Address}
    {r : Address} (hdec : L = pre ++ r :: post)
    (hpre : ∀ c ∈ pre, score r < score c)
    (hpost : ∀ c ∈ post, score r ≤ score c) :
    ∀ c ∈ L, score r ≤ score c := by
  subst hdec
  intro c hc
  rcases List.mem_append.1 hc with h | h
  · exact (hpre c h).le
  · rcases List.mem_cons.1 h with rfl | h
    · exact le_refl _
    · exact hpost c h

/-- The strict-improvement fold of `_find_next_best_address` returns the
first element of `b :: l` attaining the minimal score: everything before it
scores strictly worse, everything after it scores no better. -/
theorem selectBest_spec (score : Address → ℚ) (l : List Address) (b : Address) :
    ∃ pre post, b :: l = pre ++ selectBest score l b :: post ∧
      (∀ c ∈ pre, score (selectBest score l b) < score c) ∧
      (∀ c ∈ post, score (selectBest score l b) ≤ score c) := by
  induction l generalizing b with
  | nil => exact ⟨[], [], rfl, by simp, by simp⟩
  | cons a t ih =>
    rw [show selectBest score (a :: t) b
      = selectBest score t (if score a < score b then a else b) from rfl]
    by_cases h : score a < score b
    · rw [if_pos h]
      rcases ih a with ⟨pre, post, hdec, hpre, hpost⟩
      have hmin := score_min_of_decomp score hdec hpre hpost
      refine ⟨b :: pre, post, ?_, ?_, hpost⟩
      · rw [List.cons_append]
        exact congrArg (List.cons b) hdec
      · intro c hc
        rcases List.mem_cons.1 hc with rfl | hc
        · exact lt_of_le_of_lt (hmin a (List.mem_cons_self a t)) h
        · exact hpre c hc
    · rw [if_neg h]
      rcases ih b with ⟨pre, post, hdec, hpre, hpost⟩
      rcases pre with _ | ⟨p, pre'⟩
      · simp only [List.nil_append] at hdec
        injection hdec with hb hpost'
        refine ⟨[], a :: t, ?_, by simp, ?_⟩
        · simp only [List.nil_append]
          rw [← hb]
        · intro c hc
          rcases List.mem_cons.1 hc with rfl | hc
          · rw [← hb]
            exact not_lt.1 h
          · exact hpost c (hpost' ▸ hc)
      · simp only [List.cons_append] at hdec
        injection hdec with hpb ht
        have hrb : score (selectBest score t b) < score b := by
          have hp := hpre p (List.mem_cons_self p pre')
          rwa [← hpb] at hp
        refine ⟨b :: a :: pre', post, ?_, ?_, hpost⟩
        · simp only [List.cons_append]
          exact congrArg (fun L => b :: a :: L) ht
        · intro c hc
          rcases List.mem_cons.1 hc with rfl | hc
          · exact hrb
          rcases List.mem_cons.1 hc with rfl | hc
          · exact lt_of_lt_of_le hrb (not_lt.1 h)
          · exact hpre c (List.mem_cons_of_mem p hc)

/-- The selected element belongs to `b :: l`. -/
theorem selectBest_mem (score : Address → ℚ) (l : List Address) (b : Address) :
    selectBest score l b ∈ b :: l := by
  rcases selectBest_spec score l b with ⟨pre, post, hdec, -, -⟩
  rw [hdec]
  exact List.mem_append.2 (Or.inr (List.mem_cons_self _ _))

/-- Function `_find_next_best_address` returns `None` exactly when no candidate's
demand fits the remaining capacity. -/
theorem find_next_best_address_eq_none_iff (dist : ℚ → ℚ → ℚ → ℚ → ℚ)
    (loc : ℚ × ℚ) (cands : List Address) (cap : ℤ) :
    find_next_best_address dist loc cands cap = none ↔
      ∀ a ∈ cands, ¬ a.bottles ≤ cap := by
  have h2 : (∀ a ∈ cands, ¬ a.bottles ≤ cap) ↔
      cands.filter (fun addr => decide (addr.bottles ≤ cap)) = [] := by
    rw [List.filter_eq_nil_iff]
    simp
  rw [h2]
  unfold find_next_best_address
  split <;> simp_all

/-- A stop returned by `_find_next_best_address` is one of the candidates and
fits the remaining capacity. -/
theorem find_next_best_address_mem {dist : ℚ → ℚ → ℚ → ℚ → ℚ} {loc : ℚ × ℚ}
    {cands : List Address} {cap : ℤ} {a : Address}
    (h : find_next_best_address dist loc cands cap = some a) :
    a ∈ cands ∧ a.bottles ≤ cap := by
  have key : a ∈ cands.filter fun addr => decide (addr.bottles ≤ cap) := by
    unfold find_next_best_address at h
    split at h
    · exact absurd h (by simp)
    · next heq =>
        injection h with h2
        rw [heq, ← h2]
        exact List.mem_singleton_self _
    · next addr rest heq =>
        injection h with h2
        rw [heq, ← h2]
        exact selectBest_mem _ _ _
  refine ⟨List.mem_of_mem_filter key, ?_⟩
  simpa using List.of_mem_filter key

end RouteOpt

namespace RouteOpt

/-- Marking a stop placed does not change the demand. -/
theorem mark_placed_bottles (a : Address) (tid ord : ℤ) :
    (mark_placed a tid ord).bottles = a.bottles := rfl

/-- Marking a stop placed does not change the caller-visible identity of a stop. -/
theorem mark_placed_core (a : Address) (tid ord : ℤ) :
    stop_core (mark_placed a tid ord) = stop_core a := rfl

/-- Invariant of the greedy loop: the returned load is the accumulated sum of
the placed stops' demands. -/
theorem create_tour_loop_sum (dist : ℚ → ℚ → ℚ → ℚ → ℚ) (tour_id : ℤ) :
    ∀ (fuel : ℕ) (acc : List Address) (b : ℤ) (loc : ℚ × ℚ)
      (rem : List Address), (acc.map Address.bottles).sum = b →
      ((create_tour_loop dist tour_id fuel acc b loc rem).1.map
        Address.bottles).sum
        = (create_tour_loop dist tour_id fuel acc b loc rem).2.1 := by
  intro fuel
  induction fuel with
  | zero => intro acc b loc rem hacc; simpa [create_tour_loop] using hacc
  | succ fuel ih =>
    intro acc b loc rem hacc
    simp only [create_tour_loop]
    split
    · simpa using hacc
    · rcases hfind : find_next_best_address dist loc rem
          (MAX_BOTTLES_PER_TRIP - b) with _ | next
      · simpa using hacc
      · simp only []
        exact ih _ _ _ _ (by simp [hacc, mark_placed_bottles])

/-- Invariant of the greedy loop: the load never exceeds the capacity,
because a stop is only placed while the load is strictly below capacity and
its demand fits the remaining capacity. -/
theorem create_tour_loop_le (dist : ℚ → ℚ → ℚ → ℚ → ℚ) (tour_id : ℤ) :
    ∀ (fuel : ℕ) (acc : List Address) (b : ℤ) (loc : ℚ × ℚ)
      (rem : List Address), b ≤ MAX_BOTTLES_PER_TRIP →
      (create_tour_loop dist tour_id fuel acc b loc rem).2.1
        ≤ MAX_BOTTLES_PER_TRIP := by
  intro fuel
  induction fuel with
  | zero => intro acc b loc rem hb; simpa [create_tour_loop] using hb
  | succ fuel ih =>
    intro acc b loc rem hb
    simp only [create_tour_loop]
    split
    · simpa using hb
    · rcases hfind : find_next_best_address dist loc rem
          (MAX_BOTTLES_PER_TRIP - b) with _ | next
      · simpa using hb
      · simp only []
        refine ih _ _ _ _ ?_
        have hfit := (find_next_best_address_mem hfind).2
        omega

/-- The leftover pool of the greedy loop is a sublist of the input pool. -/
theorem create_tour_loop_sublist (dist : ℚ → ℚ → ℚ → ℚ → ℚ) (tour_id : ℤ) :
    ∀ (fuel : ℕ) (acc : List Address) (b : ℤ) (loc : ℚ × ℚ)
      (rem : List Address),
      (create_tour_loop dist tour_id fuel acc b loc rem).2.2.Sublist rem := by
  intro fuel
  induction fuel with
  | zero => intro acc b loc rem; simp [create_tour_loop]
  | succ fuel ih =>
    intro acc b loc rem
    simp only [create_tour_loop]
    split
    · simp
    · rcases hfind : find_next_best_address dist loc rem
          (MAX_BOTTLES_PER_TRIP - b) with _ | next
      · simp
      · simp only []
        exact (ih _ _ _ _).trans (List.erase_sublist _ _)

/-- Stop count conservation for the greedy loop: placed plus leftover equals
accumulator plus input pool. -/
theorem create_tour_loop_length (dist : ℚ → ℚ → ℚ → ℚ → ℚ) (tour_id : ℤ) :
    ∀ (fuel : ℕ) (acc : List Address) (b : ℤ) (loc : ℚ × ℚ)
      (rem : List Address),
      (create_tour_loop dist tour_id fuel acc b loc rem).1.length +
        (create_tour_loop dist tour_id fuel acc b loc rem).2.2.length
        = acc.length + rem.length := by
  intro fuel
  induction fuel with
  | zero => intro acc b loc rem; simp [create_tour_loop]
  | succ fuel ih =>
    intro acc b loc rem
    simp only [create_tour_loop]
    split
    · simp
    · rcases hfind : find_next_best_address dist loc rem
          (MAX_BOTTLES_PER_TRIP - b) with _ | next
      · simp
      · simp only []
        have hmem := (find_next_best_address_mem hfind).1
        have hlen := List.length_erase_of_mem hmem
        have hpos : 0 < rem.length := List.length_pos_of_mem hmem
        have := ih (acc ++ [mark_placed next tour_id (acc.length + 1)])
          (b + next.bottles) (next.lat.getD 0, next.lon.getD 0)
          (rem.erase next)
        simp only [List.length_append, List.length_singleton] at this
        omega

/-- Multiset conservation for the greedy loop, up to the assignment fields:
the cores of placed plus leftover stops are a permutation of the cores of
accumulator plus input pool. -/
theorem create_tour_loop_perm (dist : ℚ → ℚ → ℚ → ℚ → ℚ) (tour_id : ℤ) :
    ∀ (fuel : ℕ) (acc : List Address) (b : ℤ) (loc : ℚ × ℚ)
      (rem : List Address),
      ((create_tour_loop dist tour_id fuel acc b loc rem).1.map stop_core ++
        (create_tour_loop dist tour_id fuel acc b loc rem).2.2.map stop_core).Perm
        (acc.map stop_core ++ rem.map stop_core) := by
  intro fuel
  induction fuel with
  | zero => intro acc b loc rem; simp [create_tour_loop]
  | succ fuel ih =>
    intro acc b loc rem
    simp only [create_tour_loop]
    split
    · simp
    · rcases hfind : find_next_best_address dist loc rem
          (MAX_BOTTLES_PER_TRIP - b) with _ | next
      · simp
      · simp only []
        have hmem := (find_next_best_address_mem hfind).1
        have hperm : rem.Perm (next :: rem.erase next) :=
          List.perm_cons_erase hmem
        refine (ih _ _ _ _).trans ?_
        have hstep : ((acc ++ [mark_placed next tour_id (acc.length + 1)]).map
            stop_core ++ (rem.erase next).map stop_core).Perm
            (acc.map stop_core ++ (stop_core next :: (rem.erase next).map
              stop_core)) := by
          simp [mark_placed_core, List.append_assoc]
        refine hstep.trans (List.Perm.append_left _ ?_)
        exact (hperm.map stop_core).symm

/-- The accumulator only grows through the greedy loop. -/
theorem create_tour_loop_acc_le (dist : ℚ → ℚ → ℚ → ℚ → ℚ) (tour_id : ℤ) :
    ∀ (fuel : ℕ) (acc : List Address) (b : ℤ) (loc : ℚ × ℚ)
      (rem : List Address),
      acc.length ≤ (create_tour_loop dist tour_id fuel acc b loc rem).1.length := by
  intro fuel
  induction fuel with
  | zero => intro acc b loc rem; simp [create_tour_loop]
  | succ fuel ih =>
    intro acc b loc rem
    simp only [create_tour_loop]
    split
    · simp
    · rcases hfind : find_next_best_address dist loc rem
          (MAX_BOTTLES_PER_TRIP - b) with _ | next
      · simp
      · simp only []
        have := ih (acc ++ [mark_placed next tour_id (acc.length + 1)])
          (b + next.bottles) (next.lat.getD 0, next.lon.getD 0)
          (rem.erase next)
        simp only [List.length_append, List.length_singleton] at this
        omega

end RouteOpt

namespace RouteOpt

/-- One productive step of the greedy loop: with a non-empty pool, spare
capacity and every pool stop fitting the remaining capacity, at least one
stop is placed. -/
theorem create_tour_loop_progress (dist : ℚ → ℚ → ℚ → ℚ → ℚ) (tour_id : ℤ)
    (fuel : ℕ) (acc : List Address) (b : ℤ) (loc : ℚ × ℚ)
    {rem : List Address} (hrem : rem ≠ []) (hb : b < MAX_BOTTLES_PER_TRIP)
    (hfit : ∀ x ∈ rem, x.bottles ≤ MAX_BOTTLES_PER_TRIP - b) :
    acc.length <
      (create_tour_loop dist tour_id (fuel + 1) acc b loc rem).1.length := by
  simp only [create_tour_loop]
  rw [if_neg (by push_neg; exact ⟨hrem, hb⟩)]
  rcases hnext : find_next_best_address dist loc rem
      (MAX_BOTTLES_PER_TRIP - b) with _ | next
  · rw [find_next_best_address_eq_none_iff] at hnext
    rcases rem with _ | ⟨a, t⟩
    · exact absurd rfl hrem
    · exact absurd (hfit a (List.mem_cons_self a t))
        (hnext a (List.mem_cons_self a t))
  · simp only []
    have h := create_tour_loop_acc_le dist tour_id fuel
      (acc ++ [mark_placed next tour_id (acc.length + 1)]) (b + next.bottles)
      (next.lat.getD 0, next.lon.getD 0) (rem.erase next)
    simp only [List.length_append, List.length_singleton] at h
    omega

/-- The load of a built tour is the sum of its stops' demands. -/
theorem create_single_tour_sum (dist : ℚ → ℚ → ℚ → ℚ → ℚ) (tour_id : ℤ)
    (rem : List Address) :
    ((create_single_tour dist tour_id rem).1.addresses.map
      Address.bottles).sum = (create_single_tour dist tour_id rem).1.total_bottles :=
  create_tour_loop_sum dist tour_id rem.length [] 0 (hqLat, hqLon) rem (by simp)

/-- The load of a built tour never exceeds the capacity per trip. -/
theorem create_single_tour_le (dist : ℚ → ℚ → ℚ → ℚ → ℚ) (tour_id : ℤ)
    (rem : List Address) :
    (create_single_tour dist tour_id rem).1.total_bottles
      ≤ MAX_BOTTLES_PER_TRIP :=
  create_tour_loop_le dist tour_id rem.length [] 0 (hqLat, hqLon) rem
    (by norm_num [MAX_BOTTLES_PER_TRIP])

/-- Stop count conservation for a built tour. -/
theorem create_single_tour_length (dist : ℚ → ℚ → ℚ → ℚ → ℚ) (tour_id : ℤ)
    (rem : List Address) :
    (create_single_tour dist tour_id rem).1.addresses.length +
      (create_single_tour dist tour_id rem).2.length = rem.length := by
  have h := create_tour_loop_length dist tour_id rem.length [] 0
    (hqLat, hqLon) rem
  simpa using h

/-- The leftover pool of a built tour is a sublist of the input pool. -/
theorem create_single_tour_sublist (dist : ℚ → ℚ → ℚ → ℚ → ℚ) (tour_id : ℤ)
    (rem : List Address) :
    (create_single_tour dist tour_id rem).2.Sublist rem :=
  create_tour_loop_sublist dist tour_id rem.length [] 0 (hqLat, hqLon) rem

/-- Multiset conservation for a built tour, up to assignment fields. -/
theorem create_single_tour_perm (dist : ℚ → ℚ → ℚ → ℚ → ℚ) (tour_id : ℤ)
    (rem : List Address) :
    ((create_single_tour dist tour_id rem).1.addresses.map stop_core ++
      (create_single_tour dist tour_id rem).2.map stop_core).Perm
      (rem.map stop_core) := by
  have h := create_tour_loop_perm dist tour_id rem.length [] 0
    (hqLat, hqLon) rem
  simpa using h

/-- With a non-empty pool of stops that all fit an empty vehicle, the built
tour places at least one stop. -/
theorem create_single_tour_progress (dist : ℚ → ℚ → ℚ → ℚ → ℚ) (tour_id : ℤ)
    {rem : List Address} (h1 : rem ≠ [])
    (h2 : ∀ a ∈ rem, a.bottles ≤ MAX_BOTTLES_PER_TRIP) :
    (create_single_tour dist tour_id rem).1.addresses ≠ [] := by
  show (create_tour_loop dist tour_id rem.length [] 0 (hqLat, hqLon) rem).1 ≠ []
  rcases hr : rem with _ | ⟨a, t⟩
  · exact absurd rfl (hr ▸ h1)
  · rw [List.length_cons]
    refine List.ne_nil_of_length_pos ?_
    have h := @create_tour_loop_progress dist tour_id t.length [] 0
      (hqLat, hqLon) (a :: t) (by simp)
      (by norm_num [MAX_BOTTLES_PER_TRIP])
      (fun x hx => by simpa using h2 x (hr ▸ hx))
    simpa using h

/-- A tour that placed no stops has zero load and leaves the pool unchanged
(in particular every leftover stop keeps all its original field values). -/
theorem create_single_tour_empty (dist : ℚ → ℚ → ℚ → ℚ → ℚ) (tour_id : ℤ)
    (rem : List Address)
    (h : (create_single_tour dist tour_id rem).1.addresses = []) :
    (create_single_tour dist tour_id rem).1.total_bottles = 0 ∧
      (create_single_tour dist tour_id rem).2 = rem := by
  have hsum := create_single_tour_sum dist tour_id rem
  have hlen := create_single_tour_length dist tour_id rem
  rw [h] at hsum hlen
  simp only [List.map_nil, List.sum_nil, List.length_nil, Nat.zero_add] at hsum hlen
  exact ⟨hsum.symm, (create_single_tour_sublist dist tour_id rem).eq_of_length hlen⟩

end RouteOpt

namespace RouteOpt

/-- The multi-tour loop does nothing on an empty pool. -/
theorem optimize_loop_nil (dist : ℚ → ℚ → ℚ → ℚ → ℚ) :
    ∀ (fuel : ℕ) (tour_id : ℤ), optimize_loop dist fuel tour_id [] = [] := by
  intro fuel tour_id
  cases fuel <;> simp [optimize_loop]

/-- Every tour emitted by the multi-tour loop — delivery or refill — carries
a load equal to the sum of its stops' demands, bounded by the capacity. -/
theorem optimize_loop_tours (dist : ℚ → ℚ → ℚ → ℚ → ℚ) :
    ∀ (fuel : ℕ) (tour_id : ℤ) (rem : List Address),
      ∀ t ∈ optimize_loop dist fuel tour_id rem,
        (t.addresses.map Address.bottles).sum = t.total_bottles ∧
          t.total_bottles ≤ MAX_BOTTLES_PER_TRIP := by
  intro fuel
  induction fuel with
  | zero => intro tour_id rem t ht; simp [optimize_loop] at ht
  | succ fuel ih =>
    intro tour_id rem t ht
    simp only [optimize_loop] at ht
    by_cases h0 : rem = []
    · rw [if_pos h0] at ht
      simp at ht
    · rw [if_neg h0] at ht
      by_cases h1 : (create_single_tour dist tour_id rem).1.addresses = []
      · rw [if_pos h1] at ht
        rcases List.mem_singleton.1 ht with rfl
        exact ⟨create_single_tour_sum dist tour_id rem,
          create_single_tour_le dist tour_id rem⟩
      · rw [if_neg h1] at ht
        by_cases h2 : (create_single_tour dist tour_id rem).2 = []
        · rw [if_pos h2] at ht
          rcases List.mem_cons.1 ht with rfl | ht
          · exact ⟨create_single_tour_sum dist tour_id rem,
              create_single_tour_le dist tour_id rem⟩
          · exact ih (tour_id + 1) _ t ht
        · rw [if_neg h2] at ht
          rcases List.mem_cons.1 ht with rfl | ht
          · exact ⟨create_single_tour_sum dist tour_id rem,
              create_single_tour_le dist tour_id rem⟩
          rcases List.mem_cons.1 ht with rfl | ht
          · constructor
            · simp [create_hq_refill_stop, hq_refill_address]
            · simp [create_hq_refill_stop, MAX_BOTTLES_PER_TRIP]
          · exact ih (tour_id + 1) _ t ht

/-- Completeness of the multi-tour loop: when every pool stop fits an empty
vehicle and the fuel dominates the pool size, the cores of the stops placed
across the delivery tours (the even-position tours) are a permutation of the
cores of the pool. -/
theorem optimize_loop_delivery_perm (dist : ℚ → ℚ → ℚ → ℚ → ℚ) :
    ∀ (fuel : ℕ) (tour_id : ℤ) (rem : List Address), rem.length ≤ fuel →
      (∀ a ∈ rem, a.bottles ≤ MAX_BOTTLES_PER_TRIP) →
      ((((split_alternating (optimize_loop dist fuel tour_id rem)).1.flatMap
        Tour.addresses).map stop_core)).Perm (rem.map stop_core) := by
  intro fuel
  induction fuel with
  | zero =>
    intro tour_id rem hfuel hfit
    rw [List.eq_nil_of_length_eq_zero (Nat.le_zero.1 hfuel)]
    simp [optimize_loop, split_alternating]
  | succ fuel ih =>
    intro tour_id rem hfuel hfit
    simp only [optimize_loop]
    by_cases h0 : rem = []
    · rw [if_pos h0, h0]
      simp [split_alternating]
    · rw [if_neg h0]
      have h1 := create_single_tour_progress dist tour_id h0 hfit
      rw [if_neg h1]
      have hperm := create_single_tour_perm dist tour_id rem
      have hlen := create_single_tour_length dist tour_id rem
      by_cases h2 : (create_single_tour dist tour_id rem).2 = []
      · rw [if_pos h2, h2, optimize_loop_nil]
        simp only [split_alternating, List.flatMap_cons, List.flatMap_nil,
          List.append_nil]
        rw [h2] at hperm
        simpa using hperm
      · rw [if_neg h2]
        simp only [split_alternating, List.flatMap_cons, List.map_append]
        have hpos := List.length_pos_of_ne_nil h1
        have hr2fit : ∀ a ∈ (create_single_tour dist tour_id rem).2,
            a.bottles ≤ MAX_BOTTLES_PER_TRIP := fun a ha =>
          hfit a ((create_single_tour_sublist dist tour_id rem).mem ha)
        have hih := ih (tour_id + 1) _ (by omega) hr2fit
        refine (List.Perm.append_left _ hih).trans ?_
        exact hperm

/-- Counting the multi-tour loop's output: the number of delivery tours
(each one the result of one Tour Builder invocation) is at most the pool
size plus the number of refill tours. -/
theorem optimize_loop_count (dist : ℚ → ℚ → ℚ → ℚ → ℚ) :
    ∀ (fuel : ℕ) (tour_id : ℤ) (rem : List Address), rem.length ≤ fuel →
      (split_alternating (optimize_loop dist fuel tour_id rem)).1.length ≤
        rem.length +
          (split_alternating (optimize_loop dist fuel tour_id rem)).2.length := by
  intro fuel
  induction fuel with
  | zero => intro tour_id rem hfuel; simp [optimize_loop, split_alternating]
  | succ fuel ih =>
    intro tour_id rem hfuel
    simp only [optimize_loop]
    by_cases h0 : rem = []
    · rw [if_pos h0]
      simp [split_alternating]
    · rw [if_neg h0]
      have hrem := List.length_pos_of_ne_nil h0
      by_cases h1 : (create_single_tour dist tour_id rem).1.addresses = []
      · rw [if_pos h1]
        simp only [split_alternating, List.length_cons, List.length_nil]
        omega
      · rw [if_neg h1]
        have hlen := create_single_tour_length dist tour_id rem
        have hpos := List.length_pos_of_ne_nil h1
        by_cases h2 : (create_single_tour dist tour_id rem).2 = []
        · rw [if_pos h2, h2, optimize_loop_nil]
          simp only [split_alternating, List.length_cons, List.length_nil]
          omega
        · rw [if_neg h2]
          have hih := ih (tour_id + 1) (create_single_tour dist tour_id rem).2
            (by omega)
          simp only [split_alternating, List.length_cons]
          omega

end RouteOpt

namespace RouteOpt

attribute [local instance] Classical.propDecidable

/-- Conversion `math.radians`: degrees to radians. -/
noncomputable def radians (x : ℝ) : ℝ := x * (Real.pi / 180)

/-- The haversine body of `RouteOptimizer._calculate_distance`: Earth radius
6371 km, `c = 2 * asin(sqrt(a))` with
`a = sin²(dlat/2) + cos(lat1)·cos(lat2)·sin²(dlon/2)`. -/
noncomputable def haversine_km (lat1 lon1 lat2 lon2 : ℝ) : ℝ :=
  6371 * (2 * Real.arcsin (Real.sqrt (
    Real.sin ((radians lat2 - radians lat1) / 2) ^ 2 +
    Real.cos (radians lat1) * Real.cos (radians lat2) *
      Real.sin ((radians lon2 - radians lon1) / 2) ^ 2)))

/-- Function `RouteOptimizer._calculate_distance`: the `if not all([lat1, lon1, lat2,
lon2])` guard returns 0 whenever ANY of the four coordinates is falsy (`0.0`,
or `None` — represented here by the same 0 sentinel the code collapses it
to), otherwise the haversine distance. -/
noncomputable def calculate_distance (lat1 lon1 lat2 lon2 : ℝ) : ℝ :=
  if lat1 = 0 ∨ lon1 = 0 ∨ lat2 = 0 ∨ lon2 = 0 then 0
  else haversine_km lat1 lon1 lat2 lon2

/-- The haversine body is symmetric under swapping the two coordinate
pairs. -/
theorem haversine_km_symm (a b c d : ℝ) :
    haversine_km a b c d = haversine_km c d a b := by
  unfold haversine_km
  have hs : ∀ x y : ℝ,
      Real.sin ((x - y) / 2) ^ 2 = Real.sin ((y - x) / 2) ^ 2 := by
    intro x y
    rw [show (x - y) / 2 = -((y - x) / 2) by ring, Real.sin_neg]
    ring
  rw [hs (radians c) (radians a), hs (radians d) (radians b),
    mul_comm (Real.cos (radians a)) (Real.cos (radians c))]

/-- A positive `a`-term makes the haversine value nonzero. -/
theorem haversine_km_ne_zero (lat1 lon1 lat2 lon2 : ℝ)
    (h : 0 < Real.sin ((radians lat2 - radians lat1) / 2) ^ 2 +
      Real.cos (radians lat1) * Real.cos (radians lat2) *
        Real.sin ((radians lon2 - radians lon1) / 2) ^ 2) :
    haversine_km lat1 lon1 lat2 lon2 ≠ 0 := by
  unfold haversine_km
  have h1 := Real.sqrt_pos.2 h
  have h2 := Real.arcsin_pos.2 h1
  exact ne_of_gt (mul_pos (by norm_num) (mul_pos two_pos h2))

end RouteOpt

namespace RouteOpt

/-- The ranking weight table exactly as the spec sentence of claim C3 states
it: HIGH 0, MEDIUM 1, LOW 2, STANDARD or unset 3. -/
def claim_priority_weight : Option RoutePriority → ℤ
  | some .high => 0
  | some .medium => 1
  | some .low => 2
  | some .standard => 3
  | none => 3

/-- The claimed ranking order of claim C3: ascending lexicographically in
(claimed priority weight, distance from the depot). -/
def claim_sort_le (dist : ℚ → ℚ → ℚ → ℚ → ℚ) (a b : Address) : Prop :=
  claim_priority_weight a.priority < claim_priority_weight b.priority ∨
    (claim_priority_weight a.priority = claim_priority_weight b.priority ∧
      dist hqLat hqLon (a.lat.getD 0) (a.lon.getD 0) ≤
        dist hqLat hqLon (b.lat.getD 0) (b.lon.getD 0))

/-- The candidate-scorer priority table as claim C4 states it: HIGH 0,
MEDIUM 15, LOW 30, STANDARD or unset 22.5. -/
def claim_priority_score : Option RoutePriority → ℚ
  | some .high => 0
  | some .medium => 15
  | some .low => 30
  | some .standard => 22.5
  | none => 22.5

/-- The weighted candidate score exactly as claim C4 states it:
`0.40 × distance_score + 0.35 × priority_score + 0.15 × efficiency_score +
0.10 × clustering_score`. -/
def claim_address_score (dist : ℚ → ℚ → ℚ → ℚ → ℚ) (loc : ℚ × ℚ)
    (feasible : List Address) (cap : ℤ) (addr : Address) : ℚ :=
  0.40 * min (dist loc.1 loc.2 (addr.lat.getD 0) (addr.lon.getD 0)) 100 +
    0.35 * claim_priority_score addr.priority +
    0.15 * max 0 (10 - (addr.bottles : ℚ) * 0.125) +
    0.10 * calculate_cluster_bonus dist addr feasible cap

/-- The score computed by the source agrees with the score stated by the
claim: the Python truthiness test `if addr.priority:` sends both `None` and
the explicit `STANDARD` (value 0) to the 22.5 branch, and
`(value − 1) × 15` realises the claimed table on the other values. -/
theorem address_score_eq_claim (dist : ℚ → ℚ → ℚ → ℚ → ℚ) (loc : ℚ × ℚ)
    (feasible : List Address) (cap : ℤ) (addr : Address) :
    address_score dist loc feasible cap addr =
      claim_address_score dist loc feasible cap addr := by
  rcases haddr : addr.priority with _ | p
  · simp only [address_score, claim_address_score, claim_priority_score, haddr]
    ring
  · cases p <;>
      simp only [address_score, claim_address_score, claim_priority_score,
        haddr, RoutePriority.value] <;>
      norm_num <;> ring

/-- The `nearby` accumulation of `_calculate_cluster_bonus`, re-expressed in
the filter-then-pair form of the claim: a candidate is kept exactly when its
id differs from the target's, its distance to the target is at most 10 km,
and its demand fits the capacity left after placing the target. -/
theorem nearby_addresses_eq_filter (dist : ℚ → ℚ → ℚ → ℚ → ℚ)
    (target : Address) (cands : List Address) (cap : ℤ) :
    nearby_addresses dist target cands cap =
      (cands.filter fun c => ¬ c.id = target.id ∧
          dist (target.lat.getD 0) (target.lon.getD 0)
            (c.lat.getD 0) (c.lon.getD 0) ≤ 10 ∧
          c.bottles ≤ cap - target.bottles).map
        fun c => (c, dist (target.lat.getD 0) (target.lon.getD 0)
          (c.lat.getD 0) (c.lon.getD 0)) := by
  induction cands with
  | nil => rfl
  | cons c t ih =>
    by_cases h1 : c.id = target.id
    · simpa [nearby_addresses, List.filterMap_cons, List.filter_cons, h1]
        using ih
    · by_cases h2 : dist (target.lat.getD 0) (target.lon.getD 0)
          (c.lat.getD 0) (c.lon.getD 0) ≤ 10 ∧ c.bottles ≤ cap - target.bottles
      · simpa [nearby_addresses, List.filterMap_cons, List.filter_cons, h1,
          h2.1, h2.2] using ih
      · rw [Classical.not_and_iff_or_not_not] at h2
        rcases h2 with h2 | h2 <;>
          simpa [nearby_addresses, List.filterMap_cons, List.filter_cons, h1,
            h2] using ih

end RouteOpt

namespace RouteOpt

/-- A simple computable metric (the candidate's latitude) used to
instantiate the metric parameter in concrete witnesses and
counterexamples. -/
def wit_dist : ℚ → ℚ → ℚ → ℚ → ℚ := fun _ _ lat2 _ => lat2

/-- Fixture stop builder for witnesses and counterexamples. -/
def wit_stop (i : String) (b : ℤ) (p : Option RoutePriority) (la lo : ℚ) :
    Address :=
  { id := some i
    address := i
    delivery_id := none
    bottles := b
    priority := p
    lat := some la
    lon := some lo
    tour_number := none
    stop_order := none
    optimized := false }

/-- A small feasible stop. -/
def wit_small : Address := wit_stop "W1" 10 none 2 3

/-- A stop that fills a vehicle exactly. -/
def wit_full : Address := wit_stop "W2" 80 none 5 6

/-- A stop whose demand exceeds the capacity per trip. -/
def wit_big : Address := wit_stop "W3" 100 none 1 1

/-- A stop with priority explicitly set to STANDARD, far from the depot. -/
def std_stop : Address := wit_stop "S" 0 (some .standard) 100 1

/-- A stop with no priority set, close to the depot. -/
def unset_stop : Address := wit_stop "U" 0 none 1 1

/-- A lone stop used for the clustering counterexample. -/
def lone_stop : Address := wit_stop "T" 5 none 1 1

/-- C1: for every input list of stops whose demands satisfy
0 ≤ demand ≤ MAX_BOTTLES_PER_TRIP, every tour returned by `optimize_routes`
has `total_bottles` equal to the sum of its placed stops' demands, and that
load is at most the configured capacity per trip (80). This covers in
particular every delivery tour built by `_create_single_tour`; the refill
tours carry a single zero-demand depot stop and load 0, so the statement
holds for the whole returned list. -/
theorem c1_capacity_invariant (dist : ℚ → ℚ → ℚ → ℚ → ℚ)
    (addresses : List Address)
    (hdem : ∀ a ∈ addresses, 0 ≤ a.bottles ∧
      a.bottles ≤ MAX_BOTTLES_PER_TRIP) :
    ∀ t ∈ optimize_routes dist addresses,
      (t.addresses.map Address.bottles).sum = t.total_bottles ∧
        t.total_bottles ≤ MAX_BOTTLES_PER_TRIP := by
  intro t ht
  unfold optimize_routes at ht
  by_cases h : addresses = []
  · rw [if_pos h] at ht
    simp at ht
  · rw [if_neg h] at ht
    exact optimize_loop_tours dist _ 1 _ t ht

/-- Witness for C1 at a concrete one-stop input. -/
theorem c1_capacity_invariant_witness :
    (∀ a ∈ [wit_small], 0 ≤ a.bottles ∧ a.bottles ≤ MAX_BOTTLES_PER_TRIP) ∧
    ∀ t ∈ optimize_routes wit_dist [wit_small],
      (t.addresses.map Address.bottles).sum = t.total_bottles ∧
        t.total_bottles ≤ MAX_BOTTLES_PER_TRIP :=
  ⟨by with_unfolding_all decide,
   c1_capacity_invariant wit_dist [wit_small] (by with_unfolding_all decide)⟩

/-- C2: for every input list in which every stop has a resolved position and
a demand at most the capacity per trip, the stops placed across the delivery
tours of the returned list (the even positions of the alternating
delivery/refill output) are — after projecting away the assignment fields
the optimizer writes — a permutation of the input stops: no stop is dropped
and no stop is duplicated, i.e. every input stop appears in exactly one
delivery tour. -/
theorem c2_completeness (dist : ℚ → ℚ → ℚ → ℚ → ℚ) (addresses : List Address)
    (h : ∀ a ∈ addresses, a.lat ≠ none ∧ a.lon ≠ none ∧
      a.bottles ≤ MAX_BOTTLES_PER_TRIP) :
    ((((split_alternating (optimize_routes dist addresses)).1.flatMap
      Tour.addresses).map stop_core)).Perm (addresses.map stop_core) := by
  unfold optimize_routes
  by_cases h0 : addresses = []
  · rw [if_pos h0, h0]
    simp [split_alternating]
  · rw [if_neg h0]
    have hsp := List.perm_insertionSort (sortLe dist) addresses
    have hfit : ∀ a ∈ sort_addresses_by_priority_and_distance dist addresses,
        a.bottles ≤ MAX_BOTTLES_PER_TRIP := fun a ha =>
      (h a (hsp.mem_iff.1 ha)).2.2
    exact (optimize_loop_delivery_perm dist _ 1 _ le_rfl hfit).trans
      (hsp.map stop_core)

/-- Witness for C2 at a concrete one-stop input. -/
theorem c2_completeness_witness :
    (∀ a ∈ [wit_small], a.lat ≠ none ∧ a.lon ≠ none ∧
      a.bottles ≤ MAX_BOTTLES_PER_TRIP) ∧
    ((((split_alternating (optimize_routes wit_dist [wit_small])).1.flatMap
      Tour.addresses).map stop_core)).Perm ([wit_small].map stop_core) :=
  ⟨by with_unfolding_all decide,
   c2_completeness wit_dist [wit_small] (by with_unfolding_all decide)⟩

end RouteOpt

namespace RouteOpt

instance (dist : ℚ → ℚ → ℚ → ℚ → ℚ) : DecidableRel (claim_sort_le dist) :=
  fun a b => by unfold claim_sort_le; infer_instance

/-- Counterexample to C3 as stated: with the latitude metric, the stop
`std_stop` (priority explicitly STANDARD, distance 100 from the depot) is
placed BEFORE `unset_stop` (no priority, distance 1), although the claim
assigns both the weight 3 and therefore demands the closer `unset_stop`
first: the code's `else` branch gives an explicit STANDARD the weight 2, the
same as LOW, not 3. -/
theorem c3_ranking_counterexample :
    sort_addresses_by_priority_and_distance wit_dist [unset_stop, std_stop]
      = [std_stop, unset_stop] ∧
    claim_priority_weight std_stop.priority
      = claim_priority_weight unset_stop.priority ∧
    wit_dist hqLat hqLon (unset_stop.lat.getD 0) (unset_stop.lon.getD 0) <
      wit_dist hqLat hqLon (std_stop.lat.getD 0) (std_stop.lon.getD 0) ∧
    ¬ claim_sort_le wit_dist std_stop unset_stop ∧
    priority_weight std_stop.priority = 2 := by
  refine ⟨?_, ?_, ?_, ?_, ?_⟩ <;> with_unfolding_all decide

/-- C3 (amended): `_sort_addresses_by_priority_and_distance` returns a
permutation of the input sorted ascending by the lexicographic key
(priority weight, distance from the depot), where the weight is HIGH→0,
MEDIUM→1, and 2 for LOW *and* for an explicitly set STANDARD (which falls
into the code's `else  # LOW` branch); only an unset priority receives
weight 3. -/
theorem c3_ranking_amended (dist : ℚ → ℚ → ℚ → ℚ → ℚ)
    (addresses : List Address) :
    (sort_addresses_by_priority_and_distance dist addresses).Perm addresses ∧
    (sort_addresses_by_priority_and_distance dist addresses).Pairwise
      (sortLe dist) ∧
    priority_weight (some .high) = 0 ∧
    priority_weight (some .medium) = 1 ∧
    priority_weight (some .low) = 2 ∧
    priority_weight (some .standard) = 2 ∧
    priority_weight none = 3 :=
  ⟨List.perm_insertionSort (sortLe dist) addresses,
   List.sorted_insertionSort (sortLe dist) addresses,
   by decide, by decide, by decide, by decide, rfl⟩

/-- C4: the candidate scorer returns `None` exactly when no candidate's
demand fits the remaining capacity; returns the unique feasible candidate
directly when exactly one fits; and otherwise returns the first feasible
candidate (in input iteration order) minimising the claimed weighted score
`0.40×distance_score + 0.35×priority_score + 0.15×efficiency_score +
0.10×clustering_score` — everything before the returned candidate scores
strictly worse, everything after it no better, so ties go to the first
encountered minimum. -/
theorem c4_candidate_scorer (dist : ℚ → ℚ → ℚ → ℚ → ℚ) (loc : ℚ × ℚ)
    (cands : List Address) (cap : ℤ) :
    (find_next_best_address dist loc cands cap = none ↔
      ∀ a ∈ cands, ¬ a.bottles ≤ cap) ∧
    (∀ a, cands.filter (fun addr => addr.bottles ≤ cap) = [a] →
      find_next_best_address dist loc cands cap = some a) ∧
    (∀ feas, cands.filter (fun addr => addr.bottles ≤ cap) = feas →
      2 ≤ feas.length →
      ∃ b pre post, find_next_best_address dist loc cands cap = some b ∧
        feas = pre ++ b :: post ∧
        (∀ c ∈ pre, claim_address_score dist loc feas cap b <
          claim_address_score dist loc feas cap c) ∧
        (∀ c ∈ post, claim_address_score dist loc feas cap b ≤
          claim_address_score dist loc feas cap c)) := by
  refine ⟨find_next_best_address_eq_none_iff dist loc cands cap, ?_, ?_⟩
  · intro a hfe
    unfold find_next_best_address
    rw [hfe]
  · intro feas hfe hlen
    rcases feas with _ | ⟨x, _ | ⟨y, t⟩⟩
    · simp at hlen
    · simp at hlen
    · have hsel := selectBest_spec
        (address_score dist loc (x :: y :: t) cap) (y :: t) x
      rcases hsel with ⟨pre, post, hdec, hpre, hpost⟩
      refine ⟨selectBest (address_score dist loc (x :: y :: t) cap) (y :: t) x,
        pre, post, ?_, hdec, ?_, ?_⟩
      · unfold find_next_best_address
        rw [hfe]
      · intro c hc
        simp only [← address_score_eq_claim]
        exact hpre c hc
      · intro c hc
        simp only [← address_score_eq_claim]
        exact hpost c hc

/-- Witness for C4: the unique-feasible short-circuit at a concrete input. -/
theorem c4_candidate_scorer_witness :
    ([wit_small].filter (fun addr => addr.bottles ≤ (80 : ℤ))
      = [wit_small]) ∧
    find_next_best_address wit_dist (0, 0) [wit_small] 80 = some wit_small :=
  ⟨by with_unfolding_all decide,
   (c4_candidate_scorer wit_dist (0, 0) [wit_small] 80).2.1 wit_small
     (by with_unfolding_all decide)⟩

/-- Counterexample to C5 as stated: with a single candidate (the target
itself) there is no nearby candidate, yet `_calculate_cluster_bonus`
returns 0.0, not the claimed isolation penalty 5.0, because of the
`len(candidates) <= 1` early return. -/
theorem c5_cluster_counterexample :
    nearby_addresses wit_dist lone_stop [lone_stop] 80 = [] ∧
    calculate_cluster_bonus wit_dist lone_stop [lone_stop] 80 = 0 ∧
    (0 : ℚ) ≠ 5 :=
  ⟨by with_unfolding_all decide, by with_unfolding_all decide, by norm_num⟩

/-- C5 (amended): a candidate counts as nearby exactly when its id differs
from the target's id, its distance to the target is ≤ 10 km and its demand
fits the capacity remaining after placing the target; when the candidate
list has at most one element the score is 0.0 (even though no nearby
candidate exists); otherwise, when no nearby candidate exists the score is
5.0, and otherwise the score is `max 0 (5 − raw)` where raw sums
`max 0 (5 − d)` over the FIRST up to three nearby candidates in input order
(not necessarily the three nearest). -/
theorem c5_cluster_amended (dist : ℚ → ℚ → ℚ → ℚ → ℚ) (target : Address)
    (cands : List Address) (cap : ℤ) :
    (nearby_addresses dist target cands cap =
      (cands.filter fun c => ¬ c.id = target.id ∧
          dist (target.lat.getD 0) (target.lon.getD 0)
            (c.lat.getD 0) (c.lon.getD 0) ≤ 10 ∧
          c.bottles ≤ cap - target.bottles).map
        fun c => (c, dist (target.lat.getD 0) (target.lon.getD 0)
          (c.lat.getD 0) (c.lon.getD 0))) ∧
    (cands.length ≤ 1 → calculate_cluster_bonus dist target cands cap = 0) ∧
    (2 ≤ cands.length → nearby_addresses dist target cands cap = [] →
      calculate_cluster_bonus dist target cands cap = 5) ∧
    (2 ≤ cands.length → nearby_addresses dist target cands cap ≠ [] →
      calculate_cluster_bonus dist target cands cap =
        max 0 (5 - (((nearby_addresses dist target cands cap).take 3).map
          fun p => max 0 (5 - p.2)).sum)) := by
  refine ⟨nearby_addresses_eq_filter dist target cands cap, ?_, ?_, ?_⟩
  · intro h
    unfold calculate_cluster_bonus
    rw [if_pos h]
  · intro hlen hnil
    have h1 : ¬ (cands.length ≤ 1) := by omega
    simp [calculate_cluster_bonus, h1, hnil]
  · intro hlen hne
    have h1 : ¬ (cands.length ≤ 1) := by omega
    simp [calculate_cluster_bonus, h1, hne]

/-- Witness for C5 at a concrete input: the at-most-one-candidate branch. -/
theorem c5_cluster_amended_witness :
    ([lone_stop].length ≤ 1) ∧
    calculate_cluster_bonus wit_dist lone_stop [lone_stop] 80 = 0 :=
  ⟨by decide,
   (c5_cluster_amended wit_dist lone_stop [lone_stop] 80).2.1 (by decide)⟩

end RouteOpt

namespace RouteOpt

/-- C6: the multi-tour loop of `optimize_routes` inserts exactly one refill
tour — a single depot placeholder stop with load 0, distance 0.0 and a
fixed 15-minute duration — after every delivery tour that leaves stops in
the pool; and when a delivery tour is built with zero stops while the pool
is non-empty, the loop halts immediately after appending that tour, with no
refill and no further tours. -/
theorem c6_refill_insertion (dist : ℚ → ℚ → ℚ → ℚ → ℚ) (fuel : ℕ)
    (tour_id : ℤ) (rem : List Address) (hfuel : rem.length ≤ fuel)
    (hrem : rem ≠ []) :
    ((create_single_tour dist tour_id rem).1.addresses ≠ [] →
      (create_single_tour dist tour_id rem).2 ≠ [] →
      optimize_loop dist fuel tour_id rem =
        (create_single_tour dist tour_id rem).1 ::
          create_hq_refill_stop tour_id ::
          optimize_loop dist (fuel - 1) (tour_id + 1)
            (create_single_tour dist tour_id rem).2) ∧
    ((create_single_tour dist tour_id rem).1.addresses ≠ [] →
      (create_single_tour dist tour_id rem).2 = [] →
      optimize_loop dist fuel tour_id rem =
        [(create_single_tour dist tour_id rem).1]) ∧
    ((create_single_tour dist tour_id rem).1.addresses = [] →
      optimize_loop dist fuel tour_id rem =
        [(create_single_tour dist tour_id rem).1]) ∧
    (create_hq_refill_stop tour_id).addresses
      = [hq_refill_address tour_id] ∧
    (create_hq_refill_stop tour_id).total_bottles = 0 ∧
    (create_hq_refill_stop tour_id).total_distance = 0 ∧
    (create_hq_refill_stop tour_id).estimated_time = 15 := by
  rcases fuel with _ | fuel
  · exact absurd (List.eq_nil_of_length_eq_zero (Nat.le_zero.1 hfuel)) hrem
  · refine ⟨?_, ?_, ?_, rfl, rfl, rfl, rfl⟩
    · intro h1 h2
      simp only [optimize_loop]
      rw [if_neg hrem, if_neg h1, if_neg h2]
      rfl
    · intro h1 h2
      simp only [optimize_loop]
      rw [if_neg hrem, if_neg h1, if_pos h2, h2, optimize_loop_nil]
    · intro h1
      simp only [optimize_loop]
      rw [if_neg hrem, if_pos h1]

/-- Witness for C6 at a concrete two-stop pool: the first tour places the
capacity-filling stop, the oversized stop remains, and a refill tour is
inserted between the two builder invocations. -/
theorem c6_refill_insertion_witness :
    ([wit_full, wit_big].length ≤ 2) ∧
    ([wit_full, wit_big] ≠ ([] : List Address)) ∧
    ((create_single_tour wit_dist 1 [wit_full, wit_big]).1.addresses ≠ []) ∧
    ((create_single_tour wit_dist 1 [wit_full, wit_big]).2 ≠ []) ∧
    optimize_loop wit_dist 2 1 [wit_full, wit_big] =
      (create_single_tour wit_dist 1 [wit_full, wit_big]).1 ::
        create_hq_refill_stop 1 ::
        optimize_loop wit_dist (2 - 1) (1 + 1)
          (create_single_tour wit_dist 1 [wit_full, wit_big]).2 :=
  ⟨by decide, by decide,
   by with_unfolding_all decide, by with_unfolding_all decide,
   (c6_refill_insertion wit_dist 2 1 [wit_full, wit_big] (by decide)
     (by decide)).1 (by with_unfolding_all decide)
     (by with_unfolding_all decide)⟩

/-- C7: the multi-tour loop terminates for every finite pool, and the number
of Tour Builder invocations (one per delivery tour, the even positions of
the returned list) is at most the pool size plus the number of refill
insertions (the odd positions). -/
theorem c7_termination_bound (dist : ℚ → ℚ → ℚ → ℚ → ℚ)
    (addresses : List Address) :
    (split_alternating (optimize_routes dist addresses)).1.length ≤
      addresses.length +
        (split_alternating (optimize_routes dist addresses)).2.length := by
  unfold optimize_routes
  by_cases h : addresses = []
  · rw [if_pos h, h]
    simp [split_alternating]
  · rw [if_neg h]
    dsimp only
    have hcount := optimize_loop_count dist
      (sort_addresses_by_priority_and_distance dist addresses).length 1
      (sort_addresses_by_priority_and_distance dist addresses) le_rfl
    have hlen : (sort_addresses_by_priority_and_distance dist
        addresses).length = addresses.length :=
      (List.perm_insertionSort (sortLe dist) addresses).length_eq
    omega

/-- Counterexample to C8 as stated: at `(0, 50)` and `(10, 10)` neither
coordinate pair is entirely zero, yet the `not all([...])` guard fires on
the single zero latitude and the function returns 0 instead of the (nonzero)
haversine value. -/
theorem c8_distance_counterexample :
    calculate_distance 0 50 10 10 = 0 ∧
    haversine_km 0 50 10 10 ≠ 0 ∧
    ¬ (((0 : ℝ) = 0 ∧ (50 : ℝ) = 0) ∨ ((10 : ℝ) = 0 ∧ (10 : ℝ) = 0)) := by
  refine ⟨?_, ?_, by norm_num⟩
  · unfold calculate_distance
    exact if_pos (Or.inl rfl)
  · apply haversine_km_ne_zero
    have e2 : radians 0 = 0 := by unfold radians; ring
    rw [e2, Real.cos_zero, one_mul]
    have e1 : (radians 10 - 0) / 2 = Real.pi / 36 := by unfold radians; ring
    rw [e1]
    have hsin : 0 < Real.sin (Real.pi / 36) :=
      Real.sin_pos_of_pos_of_lt_pi (by positivity) (by linarith [Real.pi_pos])
    have hcos : 0 ≤ Real.cos (radians 10) := by
      apply Real.cos_nonneg_of_mem_Icc
      rw [Set.mem_Icc]
      unfold radians
      constructor <;> nlinarith [Real.pi_pos]
    nlinarith [pow_pos hsin 2, mul_nonneg hcos
      (sq_nonneg (Real.sin ((radians 10 - radians 50) / 2)))]

/-- C8 (amended): `_calculate_distance` returns 0 whenever ANY of the four
coordinates is missing/zero (not only when a whole pair is), and returns the
haversine value with Earth radius 6371 km whenever all four coordinates are
present and nonzero. -/
theorem c8_distance_amended (lat1 lon1 lat2 lon2 : ℝ) :
    ((lat1 = 0 ∨ lon1 = 0 ∨ lat2 = 0 ∨ lon2 = 0) →
      calculate_distance lat1 lon1 lat2 lon2 = 0) ∧
    (lat1 ≠ 0 → lon1 ≠ 0 → lat2 ≠ 0 → lon2 ≠ 0 →
      calculate_distance lat1 lon1 lat2 lon2
        = haversine_km lat1 lon1 lat2 lon2) := by
  constructor
  · intro h
    unfold calculate_distance
    exact if_pos h
  · intro h1 h2 h3 h4
    unfold calculate_distance
    exact if_neg (by tauto)

/-- Witness for C8 at concrete nonzero coordinates. -/
theorem c8_distance_amended_witness :
    calculate_distance 1 2 3 4 = haversine_km 1 2 3 4 :=
  (c8_distance_amended 1 2 3 4).2 one_ne_zero two_ne_zero three_ne_zero
    four_ne_zero

/-- C9: the distance function is symmetric — exactly, over the
exact-arithmetic embedding: both the zero-sentinel guard and the haversine
body are invariant under swapping the two coordinate pairs. -/
theorem c9_distance_symm (a b c d : ℝ) :
    calculate_distance a b c d = calculate_distance c d a b := by
  unfold calculate_distance
  by_cases h : a = 0 ∨ b = 0 ∨ c = 0 ∨ d = 0
  · rw [if_pos h, if_pos (by tauto)]
  · rw [if_neg h, if_neg (by tauto), haversine_km_symm]

/-- C10: when the Tour Builder places zero stops while the pool is
non-empty, the multi-tour loop still appends that zero-stop delivery tour
(total_bottles 0, empty stop list) as the final element of the returned
list, and the pool is returned unchanged — so every unplaced stop keeps all
its original field values, in particular `tour_number` and `stop_order`
unset and `optimized` false. -/
theorem c10_no_progress_halt (dist : ℚ → ℚ → ℚ → ℚ → ℚ) (fuel : ℕ)
    (tour_id : ℤ) (rem : List Address) (hfuel : rem.length ≤ fuel)
    (hrem : rem ≠ [])
    (hempty : (create_single_tour dist tour_id rem).1.addresses = []) :
    optimize_loop dist fuel tour_id rem =
      [(create_single_tour dist tour_id rem).1] ∧
    (create_single_tour dist tour_id rem).1.total_bottles = 0 ∧
    (create_single_tour dist tour_id rem).2 = rem := by
  obtain ⟨hb, hr⟩ := create_single_tour_empty dist tour_id rem hempty
  refine ⟨?_, hb, hr⟩
  rcases fuel with _ | fuel
  · exact absurd (List.eq_nil_of_length_eq_zero (Nat.le_zero.1 hfuel)) hrem
  · simp only [optimize_loop]
    rw [if_neg hrem, if_pos hempty]

/-- Witness for C10 at a concrete pool holding one oversized stop. -/
theorem c10_no_progress_halt_witness :
    ([wit_big].length ≤ 1) ∧ ([wit_big] ≠ ([] : List Address)) ∧
    ((create_single_tour wit_dist 1 [wit_big]).1.addresses = []) ∧
    (optimize_loop wit_dist 1 1 [wit_big] =
      [(create_single_tour wit_dist 1 [wit_big]).1] ∧
    (create_single_tour wit_dist 1 [wit_big]).1.total_bottles = 0 ∧
    (create_single_tour wit_dist 1 [wit_big]).2 = [wit_big]) :=
  ⟨by decide, by decide, by with_unfolding_all decide,
   c10_no_progress_halt wit_dist 1 1 [wit_big] (by decide) (by decide)
     (by with_unfolding_all decide)⟩

end RouteOpt
